import Mathlib

/-!
# Sentinel-Link: verification of the signaling relay and client state machines

Shallow embedding of the Sentinel-Link repository:

* `Relay` — the socket.io relay in `src/backend/server.js`: the
  `connectedDevices` registry (a JS `Map` keyed by socket id, modelled as an
  insertion-ordered association list), the per-socket `socket.data` record,
  and one step function translating every registered event handler.
* `Feed` — the controller-side connection state machine of
  `src/sentinel-dashboard/src/components/LiveFeed.tsx` (states, the 20000 ms
  deadline timer, `ontrack`, `handleAnswer`, `handleCandidate`,
  `enableSimulation`).
* `LegacyFeed` — the older dashboard iteration (`src/unnamed/part_002`),
  whose `ice-candidate` listener has no remote-description guard.
* `Mobile` — the device-side file handlers of `src/mobile/App.tsx` (v2.2)
  and of the v4.0 iteration (`src/unnamed/part_004`).
-/

namespace Relay

/-- The record stored in `connectedDevices`:
`{ deviceId, os, socketId }` (server.js line 43). -/
structure DeviceInfo where
  deviceId : String
  os : String
  socketId : Nat
deriving DecidableEq, Repr

/-- `socket.data.type` values assigned by the server:
`'DEVICE'` (line 45) or `'ADMIN'` (line 57). -/
inductive SockType where
  | DEVICE
  | ADMIN
deriving DecidableEq, Repr

/-- The mutable `socket.data` record: `type` and `deviceId`,
both absent until assigned. -/
structure SockData where
  type : Option SockType
  deviceId : Option String
deriving DecidableEq, Repr

/-- Fresh `socket.data` of a newly connected socket. -/
def SockData.init : SockData := ⟨none, none⟩

/-- Server state: the `connectedDevices` Map (insertion-ordered, keyed by
socket id) and the set of connected sockets with their `socket.data`. -/
structure ServerState where
  connectedDevices : List (Nat × DeviceInfo)
  sockets : List (Nat × SockData)
deriving DecidableEq, Repr

def ServerState.init : ServerState := ⟨[], []⟩

/-- JS `Map.set k v`: overwrite in place if the key is present
(keeping its insertion position), otherwise append. Generic in the value
type: it also models assignments to a socket's `socket.data`. -/
def mapSet {α : Type} (k : Nat) (v : α) : List (Nat × α) → List (Nat × α)
  | [] => [(k, v)]
  | (k', v') :: rest => if k' = k then (k, v) :: rest else (k', v') :: mapSet k v rest

/-- JS `Map.delete k`: remove the entry with key `k` (keys are unique in a
JS Map, so removing the first occurrence is exact). -/
def mapDelete {α : Type} (k : Nat) : List (Nat × α) → List (Nat × α)
  | [] => []
  | (k', v') :: rest => if k' = k then rest else (k', v') :: mapDelete k rest

/-- JS `Map.get k`. -/
def mapGet {α : Type} (k : Nat) : List (Nat × α) → Option α
  | [] => none
  | (k', v') :: rest => if k' = k then some v' else mapGet k rest

/-- `Array.from(map.values())`: values in insertion order. -/
def values (l : List (Nat × DeviceInfo)) : List DeviceInfo := l.map Prod.snd

/-- `Array.from(connectedDevices.values()).find(d => d.deviceId === target)`:
first registry value (in insertion order) with the given `deviceId`. -/
def findDevice (target : String) (l : List (Nat × DeviceInfo)) : Option DeviceInfo :=
  (values l).find? (fun d => d.deviceId = target)

/-- Read the `socket.data` of socket `k` (fresh data if absent). -/
def getData (k : Nat) (l : List (Nat × SockData)) : SockData :=
  (mapGet k l).getD SockData.init

/-- Update the `socket.data` of socket `k` with `f` (fresh data if the
socket has no record yet). -/
def updData (k : Nat) (f : SockData → SockData) (l : List (Nat × SockData)) :
    List (Nat × SockData) :=
  mapSet k (f (getData k l)) l

/-- Remove a socket (its connection closed). -/
def removeSock (k : Nat) (l : List (Nat × SockData)) : List (Nat × SockData) :=
  mapDelete k l

/-- File-item shape relayed by `file-list` / `file-list-update`. -/
structure FileItem where
  name : String
  path : String
  size : Nat
  date : Nat
deriving DecidableEq, Repr

/-- Messages the server emits. -/
inductive Msg where
  | deviceOnline (d : DeviceInfo)
  | deviceOffline (deviceId : Option String)
  | activeDevicesList (ds : List DeviceInfo)
  | offer (target sdp : String)
  | answer (target sdp : String)
  | iceCandidate (target candidate : String)
  | command (command params : String)
  | requestFileList
  | fileListUpdate (files : List FileItem)
  | deleteFile (filePath : String)
deriving DecidableEq, Repr

/-- Output actions of a handler: `io.emit` (to every connected socket),
`io.to(sid).emit` / `socket.emit` (to one socket),
`socket.broadcast.emit` (to every connected socket but the sender), and
`console.log` diagnostics. -/
inductive Out where
  | toAll (m : Msg)
  | toSocket (sid : Nat) (m : Msg)
  | broadcastFrom (sid : Nat) (m : Msg)
  | log (s : String)
deriving DecidableEq, Repr

/-- Socket ids an output is delivered to, in state `s`
(a `log` reaches no participant). -/
def recipients (s : ServerState) : Out → List Nat
  | .toAll _ => s.sockets.map Prod.fst
  | .toSocket sid _ => (s.sockets.map Prod.fst).filter (fun x => x = sid)
  | .broadcastFrom sid _ => (s.sockets.map Prod.fst).filter (fun x => x ≠ sid)
  | .log _ => []

/-- Incoming events: one constructor per `socket.on(...)` handler of
server.js, plus `connect`, plus the two message names the clients send for
which server.js registers NO handler (`download-file`, `file-data`) —
socket.io silently discards those. -/
inductive Event where
  | connect (sid : Nat)
  | registerDevice (sid : Nat) (deviceId os : String)
  | registerAdmin (sid : Nat)
  | getActiveDevices (sid : Nat)
  | offer (sid : Nat) (target sdp : String)
  | answer (sid : Nat) (target sdp : String)
  | iceCandidate (sid : Nat) (target candidate : String)
  | command (sid : Nat) (targetDeviceId command params : String)
  | requestFiles (sid : Nat) (targetDeviceId : String)
  | fileList (sid : Nat) (files : List FileItem)
  | deleteFile (sid : Nat) (targetDeviceId filePath : String)
  | downloadFile (sid : Nat) (targetDeviceId filePath fileName : String)
  | fileData (sid : Nat) (fileName data : String)
  | disconnect (sid : Nat)
deriving DecidableEq, Repr

/-- One server step: the translation, handler by handler, of the
`io.on('connection', ...)` body of `src/backend/server.js`. -/
def step (s : ServerState) : Event → ServerState × List Out
  | .connect sid =>
      ({ s with sockets := updData sid id s.sockets },
       [.log "User connected"])
  | .registerDevice sid deviceId os =>
      let deviceInfo : DeviceInfo := ⟨deviceId, os, sid⟩
      ({ connectedDevices := mapSet sid deviceInfo s.connectedDevices,
         sockets := updData sid (fun _ => ⟨some .DEVICE, some deviceId⟩) s.sockets },
       [.log ("Device registered: " ++ deviceId ++ " (" ++ os ++ ")"),
        .toAll (.deviceOnline deviceInfo)])
  | .registerAdmin sid =>
      ({ s with sockets := updData sid (fun d => { d with type := some .ADMIN }) s.sockets },
       [.log "Admin connected"])
  | .getActiveDevices sid =>
      (s, [.toSocket sid (.activeDevicesList (values s.connectedDevices))])
  | .offer _ target sdp =>
      match findDevice target s.connectedDevices with
      | some d => (s, [.toSocket d.socketId (.offer target sdp)])
      | none => (s, [])
  | .answer sid target sdp =>
      (s, [.broadcastFrom sid (.answer target sdp)])
  | .iceCandidate sid target candidate =>
      if target = "admin" then
        (s, [.broadcastFrom sid (.iceCandidate target candidate)])
      else
        match findDevice target s.connectedDevices with
        | some d => (s, [.toSocket d.socketId (.iceCandidate target candidate)])
        | none => (s, [])
  | .command _ targetDeviceId command params =>
      match findDevice targetDeviceId s.connectedDevices with
      | some d =>
          (s, [.log ("Sending command " ++ command ++ " to " ++ targetDeviceId),
               .toSocket d.socketId (.command command params)])
      | none =>
          (s, [.log ("Device " ++ targetDeviceId ++ " not found")])
  | .requestFiles _ targetDeviceId =>
      match findDevice targetDeviceId s.connectedDevices with
      | some d => (s, [.toSocket d.socketId .requestFileList])
      | none => (s, [])
  | .fileList sid files =>
      (s, [.broadcastFrom sid (.fileListUpdate files)])
  | .deleteFile _ targetDeviceId filePath =>
      match findDevice targetDeviceId s.connectedDevices with
      | some d => (s, [.toSocket d.socketId (.deleteFile filePath)])
      | none => (s, [])
  | .downloadFile _ _ _ _ => (s, [])
  | .fileData _ _ _ => (s, [])
  | .disconnect sid =>
      let data := getData sid s.sockets
      if data.type = some .DEVICE then
        ({ connectedDevices := mapDelete sid s.connectedDevices,
           sockets := removeSock sid s.sockets },
         [.toAll (.deviceOffline data.deviceId),
          .log "Device disconnected"])
      else
        ({ s with sockets := removeSock sid s.sockets }, [])

/-- Run a trace of events, returning the final state. -/
def run (s : ServerState) : List Event → ServerState
  | [] => s
  | e :: tr => run (step s e).1 tr

end Relay

namespace Feed

/-- `connectionStatus` values of
`src/sentinel-dashboard/src/components/LiveFeed.tsx` (line 25). -/
inductive Status where
  | IDLE
  | CONNECTING
  | CONNECTED
  | TIMEOUT
  | SIMULATION
deriving DecidableEq, Repr

/-- Controller-side connection state:
`connectionStatus`, the armed deadline (`timeoutRef`, carrying the duration
in ms, `none` when cleared or fired), whether `pcRef.current` is set,
the negotiation's `signalingState === 'have-local-offer'` flag, whether
`pcRef.current.remoteDescription` is set, and the candidates that have been
passed to `addIceCandidate` on the current negotiation object. -/
structure State where
  status : Status
  timer : Option Nat
  pc : Bool
  haveLocalOffer : Bool
  remoteDescription : Bool
  applied : List String
deriving DecidableEq, Repr

def State.init : State := ⟨.IDLE, none, false, false, false, []⟩

/-- The deadline duration armed by `startCall`: `window.setTimeout(..., 20000)`. -/
def timeoutMs : Nat := 20000

/-- Events driving the LiveFeed state machine: `startCall`, the deadline
timer firing, `pc.ontrack` (first remote media track), the `answer` and
`ice-candidate` socket listeners, and the SWITCH TO SIMULATION button
(rendered only in the `TIMEOUT` view). -/
inductive Event where
  | start
  | timerFire
  | track
  | answer (sdp : String)
  | candidate (c : String)
  | simulate
deriving DecidableEq, Repr

/-- One LiveFeed step, translated from the component:
* `start`: `startCall` sets `CONNECTING`, clears any prior deadline and arms
  a fresh 20000 ms one, and creates a fresh `RTCPeerConnection` whose local
  offer is set (so `signalingState` is have-local-offer; no remote
  description, no applied candidates yet).
* `timerFire`: the armed `setTimeout` callback; it fires only while armed
  (firing disarms it) and sets `TIMEOUT` unless the status is `CONNECTED`
  (the code's guard `connectionStatus !== 'CONNECTED'` reads the closure's
  captured status; on every reachable armed state both readings agree,
  since `ontrack` always clears the timer when it sets `CONNECTED`).
* `track`: `pc.ontrack` clears the deadline and sets `CONNECTED`.
* `answer`: `handleAnswer` sets the remote description only when `pcRef`
  exists and `signalingState === 'have-local-offer'`.
* `candidate`: `handleCandidate` applies the candidate only when `pcRef`
  exists and `pcRef.current.remoteDescription` is set; otherwise it is
  dropped.
* `simulate`: `enableSimulation`, reachable only from the `TIMEOUT` view. -/
def step (s : State) : Event → State
  | .start =>
      { status := .CONNECTING, timer := some timeoutMs, pc := true,
        haveLocalOffer := true, remoteDescription := false, applied := [] }
  | .timerFire =>
      match s.timer with
      | some _ =>
          { s with timer := none,
                   status := if s.status ≠ .CONNECTED then .TIMEOUT else s.status }
      | none => s
  | .track => { s with timer := none, status := .CONNECTED }
  | .answer _ =>
      if s.pc ∧ s.haveLocalOffer then
        { s with remoteDescription := true, haveLocalOffer := false }
      else s
  | .candidate c =>
      if s.pc ∧ s.remoteDescription then { s with applied := s.applied ++ [c] }
      else s
  | .simulate => if s.status = .TIMEOUT then { s with status := .SIMULATION } else s

def run (s : State) : List Event → State
  | [] => s
  | e :: evs => run (step s e) evs

/-- Number of transitions that enter the `TIMEOUT` state along a run. -/
def enterTimeoutCount (s : State) : List Event → Nat
  | [] => 0
  | e :: evs =>
      (if (step s e).status = .TIMEOUT ∧ s.status ≠ .TIMEOUT then 1 else 0)
        + enterTimeoutCount (step s e) evs

end Feed

namespace LegacyFeed

/-- Negotiation-relevant state of the older dashboard iteration
(`src/unnamed/part_002`): whether `pcRef.current` is set, whether its
remote description has been set, and the candidates passed to
`addIceCandidate`. -/
structure State where
  pc : Bool
  remoteDescription : Bool
  applied : List String
deriving DecidableEq, Repr

/-- The `ice-candidate` socket listener of `src/unnamed/part_002`
(lines 69–73): `if (pcRef.current) { await pcRef.current.addIceCandidate(...) }`
— the candidate is applied whenever a negotiation object exists, with no
check that a remote description is in place. -/
def onIceCandidate (c : String) (s : State) : State :=
  if s.pc then { s with applied := s.applied ++ [c] } else s

end LegacyFeed

namespace Mobile

/-- One entry of an `RNFS.readDir` result. -/
structure DirEntry where
  name : String
  path : String
  size : Nat
  mtime : Nat
  isFile : Bool
deriving DecidableEq, Repr

/-- The `{name, path, size, date}` shape the device emits in `file-list`. -/
def toItem (f : DirEntry) : Relay.FileItem := ⟨f.name, f.path, f.size, f.mtime⟩

/-- The fixed `pathsToCheck` of the v2.2 client (`src/mobile/App.tsx`),
parameterised by `RNFS.ExternalStorageDirectoryPath` and
`RNFS.DocumentDirectoryPath`. -/
def pathsToCheck (ext doc : String) : List String :=
  [ext ++ "/DCIM/Camera", ext ++ "/Pictures", ext ++ "/Download", doc]

/-- The items one `readDir` contributes: regular files of the directory,
mapped to the emitted shape; a path that does not exist (or errors) is
skipped via try/catch, modelled by `env p = none`. -/
def dirItems (env : String → Option (List DirEntry)) (p : String) :
    List Relay.FileItem :=
  match env p with
  | some r => (r.filter (fun f => f.isFile)).map toItem
  | none => []

/-- The comparator `(a, b) => new Date(b.date) - new Date(a.date)`:
most-recent-first. -/
def byDateDesc (a b : Relay.FileItem) : Bool := decide (b.date ≤ a.date)

/-- `request-file-list` handler of the v2.2 client (`src/mobile/App.tsx`):
gather `dirItems` over the fixed `pathsToCheck`, sort most-recent-first
(`allFiles.sort((a, b) => new Date(b.date) - new Date(a.date))`)
and keep the first 100 (`slice(0, 100)`). -/
def fileListV22 (env : String → Option (List DirEntry)) (ext doc : String) :
    List Relay.FileItem :=
  (((pathsToCheck ext doc).foldl (fun acc p => acc ++ dirItems env p) []).mergeSort
    byDateDesc).take 100

/-- `request-file-list` handler of the v4.0 client (`src/unnamed/part_004`,
lines 231–248): a single path (`ExternalStorageDirectoryPath + '/DCIM/Camera'`),
`filter(f => f.isFile()).slice(0, 50).map(...)` — the first 50 entries in
directory order, with no sort; a missing path or error yields `[]`. -/
def fileListV40 (env : String → Option (List DirEntry)) (ext : String) :
    List Relay.FileItem :=
  match env (ext ++ "/DCIM/Camera") with
  | some r => ((r.filter (fun f => f.isFile)).take 50).map toItem
  | none => []

/-- Messages the device emits in its file handlers. -/
inductive DeviceEmit where
  | fileList (files : List Relay.FileItem)
  | fileData (fileName data : String)
deriving DecidableEq, Repr

/-- `download-file-request` handler (`src/mobile/App.tsx` lines 249–262):
`RNFS.readFile(filePath, 'base64')` (modelled by `fs`, `none` on a read
error, which is caught) and one `file-data` emit carrying the whole
encoded content as a single blob. -/
def onDownloadFileRequest (fs : String → Option String)
    (filePath fileName : String) : List DeviceEmit :=
  match fs filePath with
  | some data => [.fileData fileName data]
  | none => []

/-- Two regular files of the camera directory, listed oldest-first
(`readDir` order), used against the v4.0 handler. -/
def oldEntry : DirEntry :=
  ⟨"old.jpg", "/storage/emulated/0/DCIM/Camera/old.jpg", 10, 1, true⟩

def newEntry : DirEntry :=
  ⟨"new.jpg", "/storage/emulated/0/DCIM/Camera/new.jpg", 20, 5, true⟩

/-- A file system exposing only the camera directory, holding `oldEntry`
then `newEntry` in directory order. -/
def cexEnv : String → Option (List DirEntry) := fun p =>
  if p = "/storage/emulated/0/DCIM/Camera" then some [oldEntry, newEntry] else none

end Mobile

namespace Relay

/-- Trace restriction of the registry invariant: only `register-device`
and `disconnect` events. -/
def isRegOrDisc : Event → Bool
  | .registerDevice _ _ _ => true
  | .disconnect _ => true
  | _ => false

/-- Spec-side reading (spec §8), per transport handle: a registration
(re)binds the handle to the new record, a disconnect of that handle clears
it, all other events leave it alone. -/
def specUpd (sid : Nat) (a : Option DeviceInfo) : Event → Option DeviceInfo
  | .registerDevice s d os => if s = sid then some ⟨d, os, s⟩ else a
  | .disconnect s => if s = sid then none else a
  | _ => a

/-- Spec-side reading of the registry after a trace: each transport handle
is bound to the record of its last registration, unless the handle has
since disconnected. -/
def specEntry (tr : List Event) (sid : Nat) : Option DeviceInfo :=
  tr.foldl (specUpd sid) none

/-- Well-formedness: keys of the registry and of the socket table are
unique (they are JS `Map` keys and socket ids). -/
def Wf (s : ServerState) : Prop :=
  (s.connectedDevices.map Prod.fst).Nodup ∧ (s.sockets.map Prod.fst).Nodup

/-- Link between the registry and socket data: a transport handle holds a
registry entry exactly when its `socket.data.type` is `'DEVICE'`. Holds
along register/disconnect traces. -/
def DeviceLink (s : ServerState) : Prop :=
  ∀ sid, (mapGet sid s.connectedDevices).isSome
    ↔ (getData sid s.sockets).type = some SockType.DEVICE

/-- Connected socket ids. -/
def socketIds (s : ServerState) : List Nat := s.sockets.map Prod.fst

/-- Whether an output reaches the network (anything but a console log). -/
def isDelivery : Out → Bool
  | .log _ => false
  | _ => true

/-- Network outputs of a handler. -/
def deliveries (outs : List Out) : List Out := outs.filter isDelivery

def carriesOnline : Out → Bool
  | .toAll (.deviceOnline _) => true
  | .toSocket _ (.deviceOnline _) => true
  | .broadcastFrom _ (.deviceOnline _) => true
  | _ => false

def carriesOffline : Out → Bool
  | .toAll (.deviceOffline _) => true
  | .toSocket _ (.deviceOffline _) => true
  | .broadcastFrom _ (.deviceOffline _) => true
  | _ => false

/-- How many of the outputs carry a `device-online` notification. -/
def onlineEmitCount (outs : List Out) : Nat := (outs.filter carriesOnline).length

/-- How many of the outputs carry a `device-offline` notification. -/
def offlineEmitCount (outs : List Out) : Nat := (outs.filter carriesOffline).length

/-- All socket ids the outputs are delivered to, in state `s`. -/
def deliveredTo (s : ServerState) (outs : List Out) : List Nat :=
  (outs.map (recipients s)).flatten

/-- A controller: a participant whose `socket.data.type` is `'ADMIN'`. -/
def isController (s : ServerState) (sid : Nat) : Prop :=
  (getData sid s.sockets).type = some SockType.ADMIN

/-- Scenario with one controller (socket 1) and two registered devices
(sockets 2 and 3). -/
def adminTwoDevices : ServerState :=
  ⟨[(2, ⟨"D1", "android", 2⟩), (3, ⟨"D2", "ios", 3⟩)],
   [(1, ⟨some .ADMIN, none⟩), (2, ⟨some .DEVICE, some "D1"⟩),
    (3, ⟨some .DEVICE, some "D2"⟩)]⟩

/-- Scenario with two registered devices sharing the deviceId "D"
(sockets 1 and 2, in that insertion order). -/
def dupIdState : ServerState :=
  ⟨[(1, ⟨"D", "android", 1⟩), (2, ⟨"D", "ios", 2⟩)],
   [(1, ⟨some .DEVICE, some "D"⟩), (2, ⟨some .DEVICE, some "D"⟩)]⟩

end Relay

/-! ## Association-list lemmas for the registry and the socket table -/

namespace Relay

theorem mapGet_mapSet {α : Type} (k k' : Nat) (v : α) (l : List (Nat × α)) :
    mapGet k (mapSet k' v l) = if k' = k then some v else mapGet k l := by
  induction l with
  | nil => by_cases h : k' = k <;> simp [mapSet, mapGet, h]
  | cons p rest ih =>
    obtain ⟨a, b⟩ := p
    by_cases h : a = k'
    · subst h
      by_cases h2 : a = k <;> simp [mapSet, mapGet, h2]
    · by_cases h2 : a = k
      · subst h2
        have hne : k' ≠ a := fun hh => h hh.symm
        simp [mapSet, mapGet, h, hne]
      · simp [mapSet, mapGet, h, h2, ih]

theorem mem_keys_mapSet {α : Type} (x k : Nat) (v : α) (l : List (Nat × α)) :
    x ∈ (mapSet k v l).map Prod.fst ↔ x = k ∨ x ∈ l.map Prod.fst := by
  induction l with
  | nil => simp [mapSet]
  | cons p rest ih =>
    obtain ⟨a, b⟩ := p
    by_cases h : a = k
    · subst h
      simp [mapSet]
    · simp [mapSet, h, ih]
      tauto

theorem nodup_keys_mapSet {α : Type} (k : Nat) (v : α) (l : List (Nat × α))
    (h : (l.map Prod.fst).Nodup) : ((mapSet k v l).map Prod.fst).Nodup := by
  induction l with
  | nil => simp [mapSet]
  | cons p rest ih =>
    obtain ⟨a, b⟩ := p
    simp only [List.map_cons, List.nodup_cons] at h
    by_cases hak : a = k
    · subst hak
      simpa [mapSet, List.nodup_cons] using h
    · simp only [mapSet, if_neg hak, List.map_cons, List.nodup_cons]
      refine ⟨fun hmem => ?_, ih h.2⟩
      rcases (mem_keys_mapSet a k v rest).1 hmem with h1 | h1
      · exact hak h1
      · exact h.1 h1

theorem keys_mapDelete_sublist {α : Type} (k : Nat) (l : List (Nat × α)) :
    List.Sublist ((mapDelete k l).map Prod.fst) (l.map Prod.fst) := by
  induction l with
  | nil => simp [mapDelete]
  | cons p rest ih =>
    obtain ⟨a, b⟩ := p
    by_cases h : a = k
    · simp only [mapDelete, if_pos h, List.map_cons]
      exact (List.sublist_cons_self _ _)
    · simp only [mapDelete, if_neg h, List.map_cons]
      exact ih.cons₂ _

theorem nodup_keys_mapDelete {α : Type} (k : Nat) (l : List (Nat × α))
    (h : (l.map Prod.fst).Nodup) : ((mapDelete k l).map Prod.fst).Nodup :=
  h.sublist (keys_mapDelete_sublist k l)

theorem mapGet_eq_none_of_not_mem {α : Type} (k : Nat) (l : List (Nat × α))
    (h : k ∉ l.map Prod.fst) : mapGet k l = none := by
  induction l with
  | nil => rfl
  | cons p rest ih =>
    obtain ⟨a, b⟩ := p
    simp only [List.map_cons, List.mem_cons] at h
    push_neg at h
    have : a ≠ k := fun hh => h.1 hh.symm
    simp [mapGet, this, ih h.2]

theorem mapGet_mapDelete_ne {α : Type} {k k' : Nat} (h : k ≠ k') (l : List (Nat × α)) :
    mapGet k (mapDelete k' l) = mapGet k l := by
  induction l with
  | nil => rfl
  | cons p rest ih =>
    obtain ⟨a, b⟩ := p
    by_cases h1 : a = k'
    · subst h1
      have : a ≠ k := fun hh => h (hh ▸ rfl)
      simp [mapDelete, mapGet, this]
    · by_cases h2 : a = k
      · subst h2
        simp [mapDelete, mapGet, h1]
      · simp [mapDelete, mapGet, h1, h2, ih]

theorem mapGet_mapDelete_self {α : Type} (k : Nat) (l : List (Nat × α))
    (h : (l.map Prod.fst).Nodup) : mapGet k (mapDelete k l) = none := by
  induction l with
  | nil => rfl
  | cons p rest ih =>
    obtain ⟨a, b⟩ := p
    simp only [List.map_cons, List.nodup_cons] at h
    by_cases h1 : a = k
    · subst h1
      simp only [mapDelete, if_pos rfl]
      exact mapGet_eq_none_of_not_mem a rest h.1
    · simp [mapDelete, mapGet, h1, ih h.2]

theorem getData_updData (k k' : Nat) (f : SockData → SockData)
    (l : List (Nat × SockData)) :
    getData k (updData k' f l) = if k' = k then f (getData k' l) else getData k l := by
  unfold getData updData
  rw [mapGet_mapSet]
  by_cases h : k' = k <;> simp [h, getData]

theorem getData_removeSock_ne {k k' : Nat} (h : k ≠ k') (l : List (Nat × SockData)) :
    getData k (removeSock k' l) = getData k l := by
  unfold getData removeSock
  rw [mapGet_mapDelete_ne h]

theorem getData_removeSock_self (k : Nat) (l : List (Nat × SockData))
    (h : (l.map Prod.fst).Nodup) : getData k (removeSock k l) = SockData.init := by
  unfold getData removeSock
  rw [mapGet_mapDelete_self k l h]
  rfl

theorem nodup_keys_updData (k : Nat) (f : SockData → SockData)
    (l : List (Nat × SockData)) (h : (l.map Prod.fst).Nodup) :
    ((updData k f l).map Prod.fst).Nodup :=
  nodup_keys_mapSet k _ l h

theorem nodup_keys_removeSock (k : Nat) (l : List (Nat × SockData))
    (h : (l.map Prod.fst).Nodup) : ((removeSock k l).map Prod.fst).Nodup :=
  nodup_keys_mapDelete k l h

end Relay

/-! ## Registry invariant (C1) -/

namespace Relay

theorem wf_init : Wf ServerState.init :=
  ⟨by simp [ServerState.init], by simp [ServerState.init]⟩

theorem deviceLink_init : DeviceLink ServerState.init := by
  intro sid
  simp [ServerState.init, mapGet, getData, SockData.init]

/-- One register-device step, seen from one transport handle. -/
theorem step_registerDevice_facts (s : ServerState) (sid : Nat) (did os : String)
    (hwf : Wf s) (hdl : DeviceLink s) :
    Wf (step s (.registerDevice sid did os)).1 ∧
    DeviceLink (step s (.registerDevice sid did os)).1 ∧
    ∀ k, mapGet k (step s (.registerDevice sid did os)).1.connectedDevices
      = specUpd k (mapGet k s.connectedDevices) (.registerDevice sid did os) := by
  have hcd : (step s (.registerDevice sid did os)).1.connectedDevices
      = mapSet sid ⟨did, os, sid⟩ s.connectedDevices := rfl
  have hsk : (step s (.registerDevice sid did os)).1.sockets
      = updData sid (fun _ => ⟨some SockType.DEVICE, some did⟩) s.sockets := rfl
  refine ⟨⟨?_, ?_⟩, ?_, ?_⟩
  · rw [hcd]
    exact nodup_keys_mapSet _ _ _ hwf.1
  · rw [hsk]
    exact nodup_keys_updData _ _ _ hwf.2
  · intro k
    rw [hcd, hsk, mapGet_mapSet, getData_updData]
    by_cases h : sid = k
    · simp [h]
    · simp only [if_neg h]
      exact hdl k
  · intro k
    rw [hcd, mapGet_mapSet]
    simp [specUpd]

/-- One disconnect step, seen from one transport handle. -/
theorem step_disconnect_facts (s : ServerState) (sid : Nat)
    (hwf : Wf s) (hdl : DeviceLink s) :
    Wf (step s (.disconnect sid)).1 ∧
    DeviceLink (step s (.disconnect sid)).1 ∧
    ∀ k, mapGet k (step s (.disconnect sid)).1.connectedDevices
      = specUpd k (mapGet k s.connectedDevices) (.disconnect sid) := by
  by_cases h : (getData sid s.sockets).type = some SockType.DEVICE
  · have hcd : (step s (.disconnect sid)).1.connectedDevices
        = mapDelete sid s.connectedDevices := by
      simp [step, h]
    have hsk : (step s (.disconnect sid)).1.sockets
        = removeSock sid s.sockets := by
      simp [step, h]
    refine ⟨⟨?_, ?_⟩, ?_, ?_⟩
    · rw [hcd]
      exact nodup_keys_mapDelete _ _ hwf.1
    · rw [hsk]
      exact nodup_keys_removeSock _ _ hwf.2
    · intro k
      rw [hcd, hsk]
      by_cases hk : k = sid
      · subst hk
        rw [mapGet_mapDelete_self _ _ hwf.1, getData_removeSock_self _ _ hwf.2]
        simp [SockData.init]
      · rw [mapGet_mapDelete_ne hk, getData_removeSock_ne hk]
        exact hdl k
    · intro k
      rw [hcd]
      by_cases hk : sid = k
      · subst hk
        rw [mapGet_mapDelete_self _ _ hwf.1]
        simp [specUpd]
      · have hk2 : k ≠ sid := fun hh => hk hh.symm
        rw [mapGet_mapDelete_ne hk2]
        simp [specUpd, hk]
  · have hcd : (step s (.disconnect sid)).1.connectedDevices
        = s.connectedDevices := by
      simp [step, h]
    have hsk : (step s (.disconnect sid)).1.sockets
        = removeSock sid s.sockets := by
      simp [step, h]
    refine ⟨⟨?_, ?_⟩, ?_, ?_⟩
    · rw [hcd]
      exact hwf.1
    · rw [hsk]
      exact nodup_keys_removeSock _ _ hwf.2
    · intro k
      rw [hcd, hsk]
      by_cases hk : k = sid
      · subst hk
        rw [getData_removeSock_self _ _ hwf.2]
        simp only [SockData.init]
        constructor
        · intro hsome
          exact absurd ((hdl k).1 hsome) h
        · intro hnone
          cases hnone
      · rw [getData_removeSock_ne hk]
        exact hdl k
    · intro k
      rw [hcd]
      by_cases hk : sid = k
      · subst hk
        have hnone : mapGet sid s.connectedDevices = none := by
          cases hmg : mapGet sid s.connectedDevices with
          | none => rfl
          | some d => exact absurd ((hdl sid).1 (by simp [hmg])) h
        rw [hnone]
        simp [specUpd]
      · simp [specUpd, hk]

/-- Running a register/disconnect trace preserves well-formedness and the
device link, and tracks the spec-side per-handle fold. -/
theorem run_regDisc_aux :
    ∀ (tr : List Event) (s : ServerState),
      (∀ e ∈ tr, isRegOrDisc e = true) → Wf s → DeviceLink s →
      Wf (run s tr) ∧ DeviceLink (run s tr) ∧
        ∀ sid, mapGet sid (run s tr).connectedDevices
          = tr.foldl (specUpd sid) (mapGet sid s.connectedDevices)
  | [], s, _, hwf, hdl => ⟨hwf, hdl, fun _ => rfl⟩
  | e :: tr, s, htr, hwf, hdl => by
      have he : isRegOrDisc e = true := htr e (List.mem_cons_self _ _)
      have htr' : ∀ e' ∈ tr, isRegOrDisc e' = true :=
        fun e' h' => htr e' (List.mem_cons_of_mem _ h')
      have hfacts : Wf (step s e).1 ∧ DeviceLink (step s e).1 ∧
          ∀ k, mapGet k (step s e).1.connectedDevices
            = specUpd k (mapGet k s.connectedDevices) e := by
        cases e with
        | registerDevice sid did os => exact step_registerDevice_facts s sid did os hwf hdl
        | disconnect sid => exact step_disconnect_facts s sid hwf hdl
        | connect sid => simp [isRegOrDisc] at he
        | registerAdmin sid => simp [isRegOrDisc] at he
        | getActiveDevices sid => simp [isRegOrDisc] at he
        | offer sid t p => simp [isRegOrDisc] at he
        | answer sid t p => simp [isRegOrDisc] at he
        | iceCandidate sid t c => simp [isRegOrDisc] at he
        | command sid t c p => simp [isRegOrDisc] at he
        | requestFiles sid t => simp [isRegOrDisc] at he
        | fileList sid fs => simp [isRegOrDisc] at he
        | deleteFile sid t p => simp [isRegOrDisc] at he
        | downloadFile sid t p n => simp [isRegOrDisc] at he
        | fileData sid n d => simp [isRegOrDisc] at he
      have ih := run_regDisc_aux tr (step s e).1 htr' hfacts.1 hfacts.2.1
      refine ⟨ih.1, ih.2.1, fun sid => ?_⟩
      have h3 := ih.2.2 sid
      show mapGet sid (run (step s e).1 tr).connectedDevices = _
      rw [h3, List.foldl_cons, hfacts.2.2 sid]

end Relay

/-! ## Claim theorems: registry (C1, C2, C10) and command routing (C4, C5) -/

namespace Relay

/-- C1: for every sequence of register-device and disconnect events, the
registry (the map behind `snapshot()` and `active-devices-list`) contains
exactly the devices whose transport has not disconnected — each transport
handle is bound to its last registration unless it has since disconnected
(`specEntry`) — no two entries share a transport handle, and
`get-active-devices` serves precisely the registry values. -/
theorem C1_registry_exact (tr : List Event)
    (h : ∀ e ∈ tr, isRegOrDisc e = true) :
    ((run ServerState.init tr).connectedDevices.map Prod.fst).Nodup ∧
    (∀ sid, mapGet sid (run ServerState.init tr).connectedDevices = specEntry tr sid) ∧
    (∀ sid, (step (run ServerState.init tr) (.getActiveDevices sid)).2
      = [.toSocket sid (.activeDevicesList (values (run ServerState.init tr).connectedDevices))]) := by
  have haux := run_regDisc_aux tr ServerState.init h wf_init deviceLink_init
  refine ⟨haux.1.1, fun sid => ?_, fun _ => rfl⟩
  have h3 := haux.2.2 sid
  simpa [specEntry, ServerState.init, mapGet] using h3

/-- Witness for C1 at a concrete trace: two registrations and one
disconnect. -/
theorem C1_registry_exact_witness :
    (∀ e ∈ [Event.registerDevice 1 "D1" "android",
            Event.registerDevice 2 "D2" "ios",
            Event.disconnect 1], isRegOrDisc e = true) ∧
    ((run ServerState.init [Event.registerDevice 1 "D1" "android",
        Event.registerDevice 2 "D2" "ios",
        Event.disconnect 1]).connectedDevices.map Prod.fst).Nodup ∧
    mapGet 1 (run ServerState.init [Event.registerDevice 1 "D1" "android",
        Event.registerDevice 2 "D2" "ios",
        Event.disconnect 1]).connectedDevices
      = specEntry [Event.registerDevice 1 "D1" "android",
          Event.registerDevice 2 "D2" "ios", Event.disconnect 1] 1 ∧
    mapGet 2 (run ServerState.init [Event.registerDevice 1 "D1" "android",
        Event.registerDevice 2 "D2" "ios",
        Event.disconnect 1]).connectedDevices
      = specEntry [Event.registerDevice 1 "D1" "android",
          Event.registerDevice 2 "D2" "ios", Event.disconnect 1] 2 := by
  have h : ∀ e ∈ [Event.registerDevice 1 "D1" "android",
      Event.registerDevice 2 "D2" "ios",
      Event.disconnect 1], isRegOrDisc e = true := by decide
  have hc := C1_registry_exact _ h
  exact ⟨h, hc.1, hc.2.1 1, hc.2.1 2⟩

/-- C2: `register-device` inserts or overwrites the registry entry keyed by
the transport handle, leaves every other entry alone, and emits exactly one
`device-online` carrying the new record; on disconnect, the entry is
removed and exactly one `device-offline` with that deviceId is emitted when
the participant was a device, and nothing happens to the registry (and no
`device-offline` is emitted) otherwise. -/
theorem C2_register_unregister_contract :
    (∀ (s : ServerState) (sid : Nat) (did os : String),
      mapGet sid (step s (.registerDevice sid did os)).1.connectedDevices
          = some ⟨did, os, sid⟩
      ∧ (∀ k, k ≠ sid →
          mapGet k (step s (.registerDevice sid did os)).1.connectedDevices
            = mapGet k s.connectedDevices)
      ∧ onlineEmitCount (step s (.registerDevice sid did os)).2 = 1
      ∧ Out.toAll (Msg.deviceOnline ⟨did, os, sid⟩)
          ∈ (step s (.registerDevice sid did os)).2)
    ∧ (∀ (s : ServerState) (sid : Nat),
      ((getData sid s.sockets).type = some SockType.DEVICE →
        (step s (.disconnect sid)).1.connectedDevices
            = mapDelete sid s.connectedDevices
        ∧ ((s.connectedDevices.map Prod.fst).Nodup →
            mapGet sid (step s (.disconnect sid)).1.connectedDevices = none)
        ∧ offlineEmitCount (step s (.disconnect sid)).2 = 1
        ∧ Out.toAll (Msg.deviceOffline (getData sid s.sockets).deviceId)
            ∈ (step s (.disconnect sid)).2)
      ∧ ((getData sid s.sockets).type ≠ some SockType.DEVICE →
        (step s (.disconnect sid)).1.connectedDevices = s.connectedDevices
        ∧ offlineEmitCount (step s (.disconnect sid)).2 = 0)) := by
  constructor
  · intro s sid did os
    have hcd : (step s (.registerDevice sid did os)).1.connectedDevices
        = mapSet sid ⟨did, os, sid⟩ s.connectedDevices := rfl
    have hout : (step s (.registerDevice sid did os)).2
        = [.log ("Device registered: " ++ did ++ " (" ++ os ++ ")"),
           .toAll (.deviceOnline ⟨did, os, sid⟩)] := rfl
    refine ⟨?_, ?_, ?_, ?_⟩
    · rw [hcd, mapGet_mapSet]
      simp
    · intro k hk
      rw [hcd, mapGet_mapSet, if_neg (Ne.symm hk)]
    · rw [hout]
      rfl
    · rw [hout]
      simp
  · intro s sid
    constructor
    · intro h
      have hcd : (step s (.disconnect sid)).1.connectedDevices
          = mapDelete sid s.connectedDevices := by
        simp [step, h]
      have hout : (step s (.disconnect sid)).2
          = [.toAll (.deviceOffline (getData sid s.sockets).deviceId),
             .log "Device disconnected"] := by
        simp [step, h]
      refine ⟨hcd, ?_, ?_, ?_⟩
      · intro hnd
        rw [hcd, mapGet_mapDelete_self _ _ hnd]
      · rw [hout]
        rfl
      · rw [hout]
        simp
    · intro h
      have hcd : (step s (.disconnect sid)).1.connectedDevices
          = s.connectedDevices := by
        simp [step, h]
      have hout : (step s (.disconnect sid)).2 = [] := by
        simp [step, h]
      refine ⟨hcd, ?_⟩
      rw [hout]
      rfl

/-- Witness for C2 at concrete states: a fresh registration over
`adminTwoDevices`, a device disconnect (socket 2), and a non-device
disconnect (socket 1, the admin). -/
theorem C2_register_unregister_contract_witness :
    mapGet 4 (step adminTwoDevices (.registerDevice 4 "D3" "android")).1.connectedDevices
        = some ⟨"D3", "android", 4⟩
    ∧ onlineEmitCount (step adminTwoDevices (.registerDevice 4 "D3" "android")).2 = 1
    ∧ (getData 2 adminTwoDevices.sockets).type = some SockType.DEVICE
    ∧ offlineEmitCount (step adminTwoDevices (.disconnect 2)).2 = 1
    ∧ (getData 1 adminTwoDevices.sockets).type ≠ some SockType.DEVICE
    ∧ (step adminTwoDevices (.disconnect 1)).1.connectedDevices
        = adminTwoDevices.connectedDevices := by
  have h := C2_register_unregister_contract
  have hdev : (getData 2 adminTwoDevices.sockets).type = some SockType.DEVICE := by decide
  have hadm : (getData 1 adminTwoDevices.sockets).type ≠ some SockType.DEVICE := by decide
  exact ⟨(h.1 adminTwoDevices 4 "D3" "android").1,
         (h.1 adminTwoDevices 4 "D3" "android").2.2.1,
         hdev, ((h.2 adminTwoDevices 2).1 hdev).2.2.1,
         hadm, ((h.2 adminTwoDevices 1).2 hadm).1⟩

/-- C5: a command whose target matches no registered device delivers
nothing, records one console diagnostic, is not surfaced to the sender, and
leaves the whole server state unchanged (the step is total — no exception). -/
theorem C5_command_not_found (s : ServerState) (sid : Nat) (t c p : String)
    (h : findDevice t s.connectedDevices = none) :
    step s (.command sid t c p) = (s, [.log ("Device " ++ t ++ " not found")])
    ∧ deliveries (step s (.command sid t c p)).2 = [] := by
  have hstep : step s (.command sid t c p)
      = (s, [.log ("Device " ++ t ++ " not found")]) := by
    simp [step, h]
  refine ⟨hstep, ?_⟩
  rw [hstep]
  rfl

/-- Witness for C5: a command to the never-registered id "GHOST". -/
theorem C5_command_not_found_witness :
    findDevice "GHOST" adminTwoDevices.connectedDevices = none
    ∧ step adminTwoDevices (.command 1 "GHOST" "LOCK_DEVICE" "")
        = (adminTwoDevices, [.log ("Device " ++ "GHOST" ++ " not found")])
    ∧ deliveries (step adminTwoDevices (.command 1 "GHOST" "LOCK_DEVICE" "")).2 = [] := by
  have hnone : findDevice "GHOST" adminTwoDevices.connectedDevices = none := by decide
  exact ⟨hnone, (C5_command_not_found adminTwoDevices 1 "GHOST" "LOCK_DEVICE" "" hnone).1,
         (C5_command_not_found adminTwoDevices 1 "GHOST" "LOCK_DEVICE" "" hnone).2⟩

/-- C10: `register-admin` never mutates the device registry and delivers no
notification, and a disconnect of a participant whose current type is not
device removes no registry entry and emits nothing (in particular no
`device-offline`). -/
theorem C10_register_admin_frame :
    (∀ (s : ServerState) (sid : Nat),
      (step s (.registerAdmin sid)).1.connectedDevices = s.connectedDevices
      ∧ deliveries (step s (.registerAdmin sid)).2 = [])
    ∧ (∀ (s : ServerState) (sid : Nat),
        (getData sid s.sockets).type ≠ some SockType.DEVICE →
        (step s (.disconnect sid)).2 = []
        ∧ (step s (.disconnect sid)).1.connectedDevices = s.connectedDevices
        ∧ offlineEmitCount (step s (.disconnect sid)).2 = 0) := by
  constructor
  · intro s sid
    exact ⟨rfl, rfl⟩
  · intro s sid h
    have hout : (step s (.disconnect sid)).2 = [] := by
      simp [step, h]
    have hcd : (step s (.disconnect sid)).1.connectedDevices
        = s.connectedDevices := by
      simp [step, h]
    refine ⟨hout, hcd, ?_⟩
    rw [hout]
    rfl

/-- Witness for C10: `register-admin` over `dupIdState`, and the disconnect
of socket 9 (never identified, hence not a device). -/
theorem C10_register_admin_frame_witness :
    (step dupIdState (.registerAdmin 5)).1.connectedDevices
        = dupIdState.connectedDevices
    ∧ (getData 9 dupIdState.sockets).type ≠ some SockType.DEVICE
    ∧ (step dupIdState (.disconnect 9)).2 = []
    ∧ (step dupIdState (.disconnect 9)).1.connectedDevices
        = dupIdState.connectedDevices := by
  have h9 : (getData 9 dupIdState.sockets).type ≠ some SockType.DEVICE := by decide
  exact ⟨(C10_register_admin_frame.1 dupIdState 5).1, h9,
         (C10_register_admin_frame.2 dupIdState 9 h9).1,
         (C10_register_admin_frame.2 dupIdState 9 h9).2.1⟩

end Relay

namespace Relay

/-- `List.find?` returns the first element satisfying the predicate. -/
theorem find?_first {α : Type} (p : α → Bool) :
    ∀ (l : List α) (d : α), l.find? p = some d →
      ∃ i : Fin l.length, l.get i = d ∧ p d = true ∧
        ∀ j (hj : j < i.1), p (l.get ⟨j, Nat.lt_trans hj i.2⟩) = false
  | [], d, h => by simp at h
  | a :: l, d, h => by
      by_cases ha : p a = true
      · rw [List.find?_cons_of_pos _ ha] at h
        obtain rfl : a = d := by injection h
        refine ⟨⟨0, Nat.succ_pos _⟩, rfl, ha, ?_⟩
        intro j hj
        exact absurd hj (Nat.not_lt_zero j)
      · have ha' : p a = false := by
          cases hpa : p a with
          | true => exact absurd hpa ha
          | false => rfl
        rw [List.find?_cons_of_neg _ ha] at h
        obtain ⟨i, hget, hp, hfirst⟩ := find?_first p l d h
        refine ⟨⟨i.1 + 1, Nat.succ_lt_succ i.2⟩, ?_, hp, ?_⟩
        · simpa using hget
        · intro j hj
          cases j with
          | zero => simpa using ha'
          | succ j' =>
              have hj' : j' < i.1 := Nat.lt_of_succ_lt_succ hj
              simpa using hfirst j' hj'

/-- C4: routing a command resolves its target by a linear scan of the
registry values in insertion order (`find?`); the command is delivered to
exactly one transport — the first value whose deviceId matches — the state
is unchanged, and at most one socket receives it. This covers in particular
two registered devices sharing a deviceId. -/
theorem C4_duplicate_route_first_match (s : ServerState) (sid : Nat)
    (t c p : String) (d : DeviceInfo)
    (h : findDevice t s.connectedDevices = some d) :
    (step s (.command sid t c p)).1 = s
    ∧ deliveries (step s (.command sid t c p)).2
        = [.toSocket d.socketId (.command c p)]
    ∧ d.deviceId = t
    ∧ (∃ i : Fin (values s.connectedDevices).length,
        (values s.connectedDevices).get i = d
        ∧ ∀ j (hj : j < i.1),
            ((values s.connectedDevices).get ⟨j, Nat.lt_trans hj i.2⟩).deviceId ≠ t)
    ∧ (∀ x ∈ recipients s (.toSocket d.socketId (.command c p)), x = d.socketId) := by
  have hstep : step s (.command sid t c p)
      = (s, [.log ("Sending command " ++ c ++ " to " ++ t),
             .toSocket d.socketId (.command c p)]) := by
    simp [step, h]
  obtain ⟨i, hget, hp, hfirst⟩ := find?_first _ _ _ h
  refine ⟨by rw [hstep], by rw [hstep]; rfl, by simpa using hp, ⟨i, hget, ?_⟩, ?_⟩
  · intro j hj
    simpa using hfirst j hj
  · intro x hx
    simp only [recipients, List.mem_filter, decide_eq_true_eq] at hx
    exact hx.2

/-- Witness for C4 at `dupIdState`: both devices carry deviceId "D"; the
command reaches socket 1 (the first registration) only. -/
theorem C4_duplicate_route_first_match_witness :
    findDevice "D" dupIdState.connectedDevices = some ⟨"D", "android", 1⟩
    ∧ (step dupIdState (.command 7 "D" "LOCK_DEVICE" "")).1 = dupIdState
    ∧ deliveries (step dupIdState (.command 7 "D" "LOCK_DEVICE" "")).2
        = [.toSocket 1 (.command "LOCK_DEVICE" "")]
    ∧ (∀ x ∈ recipients dupIdState (.toSocket 1 (.command "LOCK_DEVICE" "")),
        x = 1) := by
  have hf : findDevice "D" dupIdState.connectedDevices
      = some ⟨"D", "android", 1⟩ := by decide
  have h := C4_duplicate_route_first_match dupIdState 7 "D" "LOCK_DEVICE" "" ⟨"D", "android", 1⟩ hf
  exact ⟨hf, h.1, h.2.1, h.2.2.2.2⟩

/-- Counterexample to C3: in `adminTwoDevices`, device socket 2 sends an
`answer` targeted "admin"; the relay broadcasts it to every other socket,
so socket 3 — a device, not a controller — receives it. -/
theorem C3_admin_broadcast_cex :
    (step adminTwoDevices (.answer 2 "admin" "sdp0")).2
        = [.broadcastFrom 2 (.answer "admin" "sdp0")]
    ∧ (3 : Nat) ∈ deliveredTo adminTwoDevices
        (step adminTwoDevices (.answer 2 "admin" "sdp0")).2
    ∧ ¬ isController adminTwoDevices 3 := by
  refine ⟨rfl, by decide, ?_⟩
  show ¬ (getData 3 adminTwoDevices.sockets).type = some SockType.ADMIN
  decide

/-- C3 amended: `answer` and `ice-candidate` messages targeting "admin"
are broadcast to every connected participant except the sender (controller
or not); an `offer` targeting "admin" is forwarded only to a registered
device whose deviceId is the literal "admin", and dropped otherwise. -/
theorem C3_admin_broadcast_amended :
    (∀ (s : ServerState) (sid : Nat) (sdp : String),
      (step s (.answer sid "admin" sdp)).2
          = [.broadcastFrom sid (.answer "admin" sdp)]
      ∧ ∀ x, x ∈ deliveredTo s (step s (.answer sid "admin" sdp)).2
          ↔ (x ∈ socketIds s ∧ x ≠ sid))
    ∧ (∀ (s : ServerState) (sid : Nat) (cand : String),
      (step s (.iceCandidate sid "admin" cand)).2
          = [.broadcastFrom sid (.iceCandidate "admin" cand)]
      ∧ ∀ x, x ∈ deliveredTo s (step s (.iceCandidate sid "admin" cand)).2
          ↔ (x ∈ socketIds s ∧ x ≠ sid))
    ∧ (∀ (s : ServerState) (sid : Nat) (sdp : String),
      (findDevice "admin" s.connectedDevices = none →
        (step s (.offer sid "admin" sdp)).2 = [])
      ∧ ∀ d, findDevice "admin" s.connectedDevices = some d →
        (step s (.offer sid "admin" sdp)).2
          = [.toSocket d.socketId (.offer "admin" sdp)]) := by
  refine ⟨fun s sid sdp => ⟨rfl, fun x => ?_⟩,
          fun s sid cand => ⟨by simp [step], fun x => ?_⟩,
          fun s sid sdp => ⟨fun h => by simp [step, h], fun d h => by simp [step, h]⟩⟩
  · have hout : (step s (.answer sid "admin" sdp)).2
        = [.broadcastFrom sid (.answer "admin" sdp)] := rfl
    rw [hout]
    simp [deliveredTo, recipients, socketIds, List.mem_filter]
  · have hout : (step s (.iceCandidate sid "admin" cand)).2
        = [.broadcastFrom sid (.iceCandidate "admin" cand)] := by simp [step]
    rw [hout]
    simp [deliveredTo, recipients, socketIds, List.mem_filter]

/-- Witness for C3 amended: delivery set of a broadcast answer in
`adminTwoDevices`, and the dropped offer targeting "admin". -/
theorem C3_admin_broadcast_amended_witness :
    ((3 : Nat) ∈ deliveredTo adminTwoDevices
        (step adminTwoDevices (.answer 2 "admin" "s")).2
      ↔ ((3 : Nat) ∈ socketIds adminTwoDevices ∧ (3 : Nat) ≠ 2))
    ∧ findDevice "admin" adminTwoDevices.connectedDevices = none
    ∧ (step adminTwoDevices (.offer 1 "admin" "s")).2 = [] := by
  have hf : findDevice "admin" adminTwoDevices.connectedDevices = none := by decide
  exact ⟨(C3_admin_broadcast_amended.1 adminTwoDevices 2 "s").2 3, hf,
         (C3_admin_broadcast_amended.2.2 adminTwoDevices 1 "s").1 hf⟩

end Relay

/-! ## Claim theorems: connection state machine (C6, C7) and files (C8, C9) -/

namespace Feed

/-- Along any run containing no `start`, an unarmed deadline stays unarmed
and no transition into `TIMEOUT` occurs. -/
theorem noStart_no_timeout :
    ∀ (evs : List Event) (s : State), s.timer = none → (∀ e ∈ evs, e ≠ .start) →
      (run s evs).timer = none ∧ enterTimeoutCount s evs = 0
  | [], _, h, _ => ⟨h, rfl⟩
  | e :: evs, s, h, hne => by
      have he : e ≠ .start := hne e (List.mem_cons_self _ _)
      have hstep : (step s e).timer = none
          ∧ ¬((step s e).status = .TIMEOUT ∧ s.status ≠ .TIMEOUT) := by
        cases e with
        | start => exact absurd rfl he
        | timerFire =>
            have hs : step s .timerFire = s := by simp [step, h]
            rw [hs]
            exact ⟨h, fun hx => hx.2 hx.1⟩
        | track => exact ⟨rfl, fun hx => Status.noConfusion hx.1⟩
        | answer sdp =>
            by_cases hc : s.pc ∧ s.haveLocalOffer
            · have hs : step s (.answer sdp)
                  = { s with remoteDescription := true, haveLocalOffer := false } := by
                simp [step, hc]
              rw [hs]
              exact ⟨h, fun hx => hx.2 hx.1⟩
            · have hs : step s (.answer sdp) = s := by simp [step, hc]
              rw [hs]
              exact ⟨h, fun hx => hx.2 hx.1⟩
        | candidate c =>
            by_cases hc : s.pc ∧ s.remoteDescription
            · have hs : step s (.candidate c)
                  = { s with applied := s.applied ++ [c] } := by
                simp [step, hc]
              rw [hs]
              exact ⟨h, fun hx => hx.2 hx.1⟩
            · have hs : step s (.candidate c) = s := by simp [step, hc]
              rw [hs]
              exact ⟨h, fun hx => hx.2 hx.1⟩
        | simulate =>
            by_cases hc : s.status = .TIMEOUT
            · have hs : step s .simulate = { s with status := .SIMULATION } := by
                simp [step, hc]
              rw [hs]
              exact ⟨h, fun hx => Status.noConfusion hx.1⟩
            · have hs : step s .simulate = s := by simp [step, hc]
              rw [hs]
              exact ⟨h, fun hx => hx.2 hx.1⟩
      have htail := noStart_no_timeout evs (step s e) hstep.1
        (fun e' h' => hne e' (List.mem_cons_of_mem _ h'))
      refine ⟨htail.1, ?_⟩
      show (if (step s e).status = .TIMEOUT ∧ s.status ≠ .TIMEOUT then 1 else 0)
          + enterTimeoutCount (step s e) evs = 0
      rw [if_neg hstep.2, htail.2]

/-- C6: `startCall` enters `CONNECTING` and arms the 20000 ms deadline;
while `CONNECTING` with the deadline armed, its firing transitions to
`TIMEOUT` and disarms; once the deadline is unarmed, no run without an
explicit new `start` re-arms it or enters `TIMEOUT` again (so `TIMEOUT` is
entered exactly once per attempt); the first remote track moves to
`CONNECTED` and cancels the deadline; and a step reaches `CONNECTED` only
via the `track` event. -/
theorem C6_connecting_timeout_machine :
    (∀ s : State, (step s .start).status = .CONNECTING
      ∧ (step s .start).timer = some 20000)
    ∧ (∀ (s : State) (d : Nat), s.status = .CONNECTING → s.timer = some d →
        (step s .timerFire).status = .TIMEOUT ∧ (step s .timerFire).timer = none)
    ∧ (∀ (s : State) (evs : List Event), s.timer = none →
        (∀ e ∈ evs, e ≠ .start) →
        (run s evs).timer = none ∧ enterTimeoutCount s evs = 0)
    ∧ (∀ s : State, (step s .track).status = .CONNECTED
        ∧ (step s .track).timer = none)
    ∧ (∀ (s : State) (e : Event), (step s e).status = .CONNECTED →
        s.status = .CONNECTED ∨ e = .track) := by
  refine ⟨fun s => ⟨rfl, rfl⟩, ?_,
    fun s evs h1 h2 => noStart_no_timeout evs s h1 h2, fun s => ⟨rfl, rfl⟩, ?_⟩
  · intro s d h1 h2
    have hs : step s .timerFire
        = { s with timer := none,
                   status := if s.status ≠ .CONNECTED then .TIMEOUT else s.status } := by
      simp [step, h2]
    rw [hs]
    refine ⟨?_, rfl⟩
    show (if s.status ≠ .CONNECTED then Status.TIMEOUT else s.status) = .TIMEOUT
    rw [h1]
    rfl
  · intro s e hc
    cases e with
    | start =>
        have hs : (step s .start).status = .CONNECTING := rfl
        rw [hs] at hc
        exact Status.noConfusion hc
    | timerFire =>
        cases ht : s.timer with
        | none =>
            have hs : step s .timerFire = s := by simp [step, ht]
            rw [hs] at hc
            exact Or.inl hc
        | some d =>
            have hs : (step s .timerFire).status
                = if s.status ≠ .CONNECTED then .TIMEOUT else s.status := by
              simp [step, ht]
            rw [hs] at hc
            by_cases hcc : s.status = .CONNECTED
            · exact Or.inl hcc
            · rw [if_pos hcc] at hc
              exact Status.noConfusion hc
    | track => exact Or.inr rfl
    | answer sdp =>
        by_cases hpc : s.pc ∧ s.haveLocalOffer
        · have hs : (step s (.answer sdp)).status = s.status := by simp [step, hpc]
          rw [hs] at hc
          exact Or.inl hc
        · have hs : step s (.answer sdp) = s := by simp [step, hpc]
          rw [hs] at hc
          exact Or.inl hc
    | candidate c =>
        by_cases hpc : s.pc ∧ s.remoteDescription
        · have hs : (step s (.candidate c)).status = s.status := by simp [step, hpc]
          rw [hs] at hc
          exact Or.inl hc
        · have hs : step s (.candidate c) = s := by simp [step, hpc]
          rw [hs] at hc
          exact Or.inl hc
    | simulate =>
        by_cases hts : s.status = .TIMEOUT
        · have hs : (step s .simulate).status = .SIMULATION := by simp [step, hts]
          rw [hs] at hc
          exact Status.noConfusion hc
        · have hs : step s .simulate = s := by simp [step, hts]
          rw [hs] at hc
          exact Or.inl hc

end Feed

/-- Witness for C6 on a concrete attempt: `start` then the deadline firing,
followed by a start-free run. -/
theorem C6_connecting_timeout_machine_witness :
    (Feed.step Feed.State.init .start).status = .CONNECTING
    ∧ (Feed.step Feed.State.init .start).timer = some 20000
    ∧ (Feed.step (Feed.step Feed.State.init .start) .timerFire).status = .TIMEOUT
    ∧ (Feed.step (Feed.step Feed.State.init .start) .timerFire).timer = none
    ∧ (Feed.run (Feed.step (Feed.step Feed.State.init .start) .timerFire)
        [.simulate, .candidate "c", .timerFire]).timer = none
    ∧ Feed.enterTimeoutCount (Feed.step (Feed.step Feed.State.init .start) .timerFire)
        [.simulate, .candidate "c", .timerFire] = 0
    ∧ (Feed.step (Feed.step Feed.State.init .start) .track).status = .CONNECTED
    ∧ (Feed.step (Feed.step Feed.State.init .start) .track).timer = none := by
  have h := Feed.C6_connecting_timeout_machine
  have h1 := h.1 Feed.State.init
  have hstat : (Feed.step Feed.State.init .start).status = .CONNECTING := h1.1
  have h2 := h.2.1 (Feed.step Feed.State.init .start) 20000 hstat h1.2
  have hnostart : ∀ e ∈ ([.simulate, .candidate "c", .timerFire] : List Feed.Event),
      e ≠ .start := by decide
  have h3 := h.2.2.1 (Feed.step (Feed.step Feed.State.init .start) .timerFire)
    [.simulate, .candidate "c", .timerFire] h2.2 hnostart
  have h4 := h.2.2.2.1 (Feed.step Feed.State.init .start)
  exact ⟨h1.1, h1.2, h2.1, h2.2, h3.1, h3.2, h4.1, h4.2⟩

/-- C7 — the current controller endpoint (`LiveFeed.tsx`) leaves the state
untouched (candidate never applied) whenever no remote description is set;
but the older iteration (`src/unnamed/part_002`) applies a candidate to the
negotiation object at a state with a live negotiation object and no remote
description. -/
theorem C7_candidate_before_remote_description :
    (∀ (s : Feed.State) (c : String), s.remoteDescription = false →
      Feed.step s (.candidate c) = s)
    ∧ (LegacyFeed.onIceCandidate "cand0" ⟨true, false, []⟩).applied = ["cand0"]
    ∧ (⟨true, false, []⟩ : LegacyFeed.State).remoteDescription = false := by
  refine ⟨fun s c h => ?_, rfl, rfl⟩
  have hng : ¬ (s.pc ∧ s.remoteDescription) := fun hx => by
    rw [h] at hx
    exact Bool.noConfusion hx.2
  simp [Feed.step, hng]

/-- Witness for C7 at a concrete `CONNECTING` state with no remote
description. -/
theorem C7_candidate_before_remote_description_witness :
    (⟨.CONNECTING, some 20000, true, true, false, []⟩ : Feed.State).remoteDescription
        = false
    ∧ Feed.step (⟨.CONNECTING, some 20000, true, true, false, []⟩ : Feed.State)
        (.candidate "x")
      = ⟨.CONNECTING, some 20000, true, true, false, []⟩ :=
  ⟨rfl, C7_candidate_before_remote_description.1
      ⟨.CONNECTING, some 20000, true, true, false, []⟩ "x" rfl⟩

/-- C8: the relay of server.js registers no handler for `download-file`
(nor for `file-data`), so such a message mutates nothing and is forwarded
to nobody — the download path dies at the relay; the device-side handler,
were the request forwarded, would answer with exactly one `file-data`
carrying the whole base64 content as a single blob. -/
theorem C8_download_file_dropped :
    (∀ (s : Relay.ServerState) (sid : Nat) (t fp fn : String),
      Relay.step s (.downloadFile sid t fp fn) = (s, []))
    ∧ (∀ (s : Relay.ServerState) (sid : Nat) (fn dat : String),
      Relay.step s (.fileData sid fn dat) = (s, []))
    ∧ (∀ (fs : String → Option String) (fp fn dat : String),
      fs fp = some dat →
        Mobile.onDownloadFileRequest fs fp fn = [.fileData fn dat]) := by
  refine ⟨fun _ _ _ _ _ => rfl, fun _ _ _ _ => rfl, fun fs fp fn dat h => ?_⟩
  simp [Mobile.onDownloadFileRequest, h]

/-- Witness for C8: a concrete `download-file` for registered device "D1"
is dropped by the relay; the device handler would answer on a concrete
file system. -/
theorem C8_download_file_dropped_witness :
    Relay.step Relay.adminTwoDevices (.downloadFile 1 "D1" "/a.jpg" "a.jpg")
        = (Relay.adminTwoDevices, [])
    ∧ (fun p => if p = "/a.jpg" then some "QUJD" else none) "/a.jpg" = some "QUJD"
    ∧ Mobile.onDownloadFileRequest
        (fun p => if p = "/a.jpg" then some "QUJD" else none) "/a.jpg" "a.jpg"
      = [.fileData "a.jpg" "QUJD"] := by
  have hfs : (fun p => if p = "/a.jpg" then some "QUJD" else none) "/a.jpg"
      = some "QUJD" := by simp
  exact ⟨C8_download_file_dropped.1 Relay.adminTwoDevices 1 "D1" "/a.jpg" "a.jpg",
         hfs,
         C8_download_file_dropped.2.2 _ "/a.jpg" "a.jpg" "QUJD" hfs⟩

/-- Counterexample to C9: the v4.0 client returns the camera directory's
files in directory order — here dates `[1, 5]` — which is not
most-recent-first. -/
theorem C9_file_list_cex :
    Mobile.fileListV40 Mobile.cexEnv "/storage/emulated/0"
        = [Mobile.toItem Mobile.oldEntry, Mobile.toItem Mobile.newEntry]
    ∧ (Mobile.fileListV40 Mobile.cexEnv "/storage/emulated/0").map
        Relay.FileItem.date = [1, 5]
    ∧ ¬ List.Sorted (fun a b : Relay.FileItem => b.date ≤ a.date)
        (Mobile.fileListV40 Mobile.cexEnv "/storage/emulated/0") := by
  refine ⟨by decide, by decide, ?_⟩
  intro hsort
  have := List.rel_of_sorted_cons hsort (Mobile.toItem Mobile.newEntry) (by decide)
  exact absurd this (by decide)

namespace Mobile

/-- Accumulating a list-valued function with `foldl` and append collects
the per-element lists in order. -/
theorem foldl_append_collect {α β : Type} (g : β → List α) :
    ∀ (ps : List β) (init : List α),
      ps.foldl (fun acc p => acc ++ g p) init = init ++ (ps.map g).flatten
  | [], init => by simp
  | p :: ps, init => by
      simp only [List.foldl_cons, List.map_cons, List.flatten_cons]
      rw [foldl_append_collect g ps (init ++ g p), List.append_assoc]

end Mobile

/-- C9 amended: the v2.2 client's file list is gathered from the fixed set
of well-known directories, capped at 100 and sorted most-recent-first; the
v4.0 iteration's list is gathered from its single fixed directory and
capped at 50, but returned in directory order, not sorted. Every listed
item is the `{name, path, size, mtime}` record of a regular file of the
scanned directories. -/
theorem C9_file_list_amended (env : String → Option (List Mobile.DirEntry))
    (ext doc : String) :
    (Mobile.fileListV22 env ext doc).length ≤ 100
    ∧ List.Sorted (fun a b : Relay.FileItem => b.date ≤ a.date)
        (Mobile.fileListV22 env ext doc)
    ∧ (∀ it ∈ Mobile.fileListV22 env ext doc,
        ∃ p ∈ Mobile.pathsToCheck ext doc, it ∈ Mobile.dirItems env p)
    ∧ (∀ (p : String) (r : List Mobile.DirEntry), env p = some r →
        ∀ it ∈ Mobile.dirItems env p,
          ∃ f ∈ r, f.isFile = true ∧ Mobile.toItem f = it)
    ∧ (Mobile.fileListV40 env ext).length ≤ 50
    ∧ (∀ it ∈ Mobile.fileListV40 env ext,
        it ∈ Mobile.dirItems env (ext ++ "/DCIM/Camera")) := by
  have htrans : ∀ (a b c : Relay.FileItem), Mobile.byDateDesc a b →
      Mobile.byDateDesc b c → Mobile.byDateDesc a c := by
    intro a b c h1 h2
    simp only [Mobile.byDateDesc, decide_eq_true_eq] at h1 h2 ⊢
    exact le_trans h2 h1
  have htotal : ∀ (a b : Relay.FileItem),
      Mobile.byDateDesc a b || Mobile.byDateDesc b a := by
    intro a b
    simp only [Mobile.byDateDesc, Bool.or_eq_true, decide_eq_true_eq]
    exact le_total b.date a.date
  refine ⟨?_, ?_, ?_, ?_, ?_, ?_⟩
  · show ((((Mobile.pathsToCheck ext doc).foldl
        (fun acc p => acc ++ Mobile.dirItems env p) []).mergeSort
        Mobile.byDateDesc).take 100).length ≤ 100
    exact List.length_take_le 100 _
  · have hs : (((Mobile.pathsToCheck ext doc).foldl
        (fun acc p => acc ++ Mobile.dirItems env p) []).mergeSort
        Mobile.byDateDesc).Pairwise (fun a b => Mobile.byDateDesc a b) :=
      List.sorted_mergeSort htrans htotal _
    have hsp : (((Mobile.pathsToCheck ext doc).foldl
        (fun acc p => acc ++ Mobile.dirItems env p) []).mergeSort
        Mobile.byDateDesc).Pairwise (fun a b : Relay.FileItem => b.date ≤ a.date) :=
      hs.imp (fun h => by simpa [Mobile.byDateDesc, decide_eq_true_eq] using h)
    exact List.Pairwise.sublist (List.take_sublist _ _) hsp
  · intro it hit
    have hmem : it ∈ ((Mobile.pathsToCheck ext doc).foldl
        (fun acc p => acc ++ Mobile.dirItems env p) []).mergeSort
        Mobile.byDateDesc :=
      (List.take_sublist _ _).subset hit
    have hall : it ∈ (Mobile.pathsToCheck ext doc).foldl
        (fun acc p => acc ++ Mobile.dirItems env p) [] :=
      List.mem_mergeSort.1 hmem
    rw [Mobile.foldl_append_collect] at hall
    simp only [List.nil_append, List.mem_flatten, List.mem_map] at hall
    obtain ⟨l, ⟨p, hp, rfl⟩, hl⟩ := hall
    exact ⟨p, hp, hl⟩
  · intro p r henv it hit
    simp only [Mobile.dirItems, henv, List.mem_map, List.mem_filter] at hit
    obtain ⟨f, ⟨hfr, hfile⟩, rfl⟩ := hit
    exact ⟨f, hfr, hfile, rfl⟩
  · cases henv : env (ext ++ "/DCIM/Camera") with
    | none => simp [Mobile.fileListV40, henv]
    | some r =>
        simp only [Mobile.fileListV40, henv, List.length_map]
        exact List.length_take_le 50 _
  · intro it hit
    cases henv : env (ext ++ "/DCIM/Camera") with
    | none => simp [Mobile.fileListV40, henv] at hit
    | some r =>
        simp only [Mobile.fileListV40, henv, List.mem_map] at hit
        obtain ⟨f, hf, rfl⟩ := hit
        have hfr : f ∈ r.filter (fun f => f.isFile) :=
          (List.take_sublist _ _).subset hf
        simp only [Mobile.dirItems, henv, List.mem_map]
        exact ⟨f, hfr, rfl⟩

/-- Witness for C9 amended at `cexEnv`: the camera directory's entries are
listed, the provenance conjuncts are discharged on a concrete item, and
both caps hold. -/
theorem C9_file_list_amended_witness :
    Mobile.cexEnv "/storage/emulated/0/DCIM/Camera"
        = some [Mobile.oldEntry, Mobile.newEntry]
    ∧ Mobile.toItem Mobile.oldEntry
        ∈ Mobile.dirItems Mobile.cexEnv "/storage/emulated/0/DCIM/Camera"
    ∧ (∃ f ∈ [Mobile.oldEntry, Mobile.newEntry],
        f.isFile = true ∧ Mobile.toItem f = Mobile.toItem Mobile.oldEntry)
    ∧ (Mobile.fileListV22 Mobile.cexEnv "/storage/emulated/0" "/doc").length ≤ 100
    ∧ Mobile.toItem Mobile.oldEntry
        ∈ Mobile.fileListV40 Mobile.cexEnv "/storage/emulated/0"
    ∧ Mobile.toItem Mobile.oldEntry
        ∈ Mobile.dirItems Mobile.cexEnv ("/storage/emulated/0" ++ "/DCIM/Camera") := by
  have h := C9_file_list_amended Mobile.cexEnv "/storage/emulated/0" "/doc"
  have henv : Mobile.cexEnv "/storage/emulated/0/DCIM/Camera"
      = some [Mobile.oldEntry, Mobile.newEntry] := by decide
  have hmem : Mobile.toItem Mobile.oldEntry
      ∈ Mobile.dirItems Mobile.cexEnv "/storage/emulated/0/DCIM/Camera" := by decide
  have hmem40 : Mobile.toItem Mobile.oldEntry
      ∈ Mobile.fileListV40 Mobile.cexEnv "/storage/emulated/0" := by decide
  exact ⟨henv, hmem, h.2.2.2.1 _ _ henv _ hmem, h.1, hmem40,
         h.2.2.2.2.2 _ hmem40⟩
